import Mathlib

/-!
Verification of the temporal feature / walk-forward backtesting core of the
NFL prediction repository.  Python floats are modelled as exact rationals
(`ℚ`), JSON dictionaries as structures, optional JSON keys (accessed through
`dict.get(key, default)` in the source) as `Option` fields, and the scripts'
top-level loops as list folds.  Each definition is a direct translation of
the Python function named in its doc comment.
-/

set_option linter.unusedVariables false

namespace Predict

/-! ## Data model (section 3 of the spec, fields as used by the scripts) -/

/-- The `last3Games` sub-dictionary of a team entry.  The scripts read
`last3Games.get('pointsScored', default)`, so the keys are optional. -/
structure Last3 where
  pointsScored : Option (List ℚ)
  pointsAllowed : Option (List ℚ)
deriving DecidableEq, Repr

/-- A `homeTeam` / `awayTeam` entry of a game record. -/
structure TeamData where
  id : ℕ
  name : String
  winPct : ℚ
  ppg : ℚ
  pag : ℚ
  yardsPerGame : ℚ
  yardsAllowedPerGame : ℚ
  turnoverDiff : ℚ
  restDays : Option ℚ
  last3Games : Last3
deriving DecidableEq, Repr

/-- The `matchup` sub-dictionary.  Keys read via `.get(k, default)` are
optional. -/
structure Matchup where
  isDivisional : Bool
  isConference : Bool
  isThursdayNight : Option Bool
  isMondayNight : Option Bool
  isSundayNight : Option Bool
  restDaysDiff : Option ℚ
deriving DecidableEq, Repr

/-- The `weather` sub-dictionary. -/
structure Weather where
  temperature : Option ℚ
  windSpeed : Option ℚ
  precipitation : Option ℚ
  isDome : Option Bool
deriving DecidableEq, Repr

/-- The `outcome` sub-dictionary of a settled game. -/
structure Outcome where
  homeScore : ℚ
  awayScore : ℚ
  homeWon : Bool
  actualSpread : ℚ
deriving DecidableEq, Repr

/-- The optional `lines` sub-dictionary (market line). -/
structure Lines where
  spread : ℚ
  total : ℚ
deriving DecidableEq, Repr

/-- One settled game record of the event store, with the fields the core
scripts read.  `lines = none` models both a missing `lines` key and a falsy
`lines` value (the scripts treat the two identically). -/
structure Game where
  gameId : ℕ
  date : String
  season : ℤ
  week : ℤ
  homeTeam : TeamData
  awayTeam : TeamData
  matchup : Matchup
  weather : Weather
  outcome : Outcome
  lines : Option Lines
deriving DecidableEq, Repr

/-- Arithmetic mean of a list, as `numpy.mean`; `0` on the empty list
(the scripts only take means of nonempty lists). -/
def listMean (l : List ℚ) : ℚ := l.sum / l.length

/-! ## Point-in-time statistics engine
(`src/training/backtest_historical.py`, `calculate_team_stats_historical`) -/

/-- Output dictionary of `calculate_team_stats_historical`. -/
structure TeamStats where
  winPct : ℚ
  ppg : ℚ
  pag : ℚ
  yardsPerGame : ℚ
  yardsAllowedPerGame : ℚ
  turnoverDiff : ℚ
  restDays : ℚ
  last3_pf : List ℚ
  last3_pa : List ℚ
deriving DecidableEq, Repr

/-- The literal default dictionary returned by
`calculate_team_stats_historical` when the team has no prior games. -/
def defaultTeamStats : TeamStats :=
  { winPct := 1/2, ppg := 22, pag := 22, yardsPerGame := 350,
    yardsAllowedPerGame := 350, turnoverDiff := 0, restDays := 7,
    last3_pf := [22, 22, 22], last3_pa := [22, 22, 22] }

/-- Points scored by `team` in game `g` (home or away side). -/
def pfOf (team : String) (g : Game) : ℚ :=
  if g.homeTeam.name == team then g.outcome.homeScore else g.outcome.awayScore

/-- Points allowed by `team` in game `g`. -/
def paOf (team : String) (g : Game) : ℚ :=
  if g.homeTeam.name == team then g.outcome.awayScore else g.outcome.homeScore

/-- Whether `team` won game `g` (`outcome['homeWon']`, negated for the away
side), as in the loop body of `calculate_team_stats_historical`. -/
def wonBy (team : String) (g : Game) : Bool :=
  if g.homeTeam.name == team then g.outcome.homeWon else !g.outcome.homeWon

/-- The filter of `calculate_team_stats_historical`:
`g['season'] == season and g['week'] < week and (home or away name matches)`. -/
def teamGameFilter (team : String) (season week : ℤ) (g : Game) : Bool :=
  g.season == season && decide (g.week < week) &&
    (g.homeTeam.name == team || g.awayTeam.name == team)

/-- `team_games` list of `calculate_team_stats_historical`. -/
def teamGames (team : String) (season week : ℤ) (all_games : List Game) : List Game :=
  all_games.filter (teamGameFilter team season week)

/-- Body of `calculate_team_stats_historical` after the `team_games` filter:
wins, totals, last-3 slices (`scores[-3:]`), and the `while len < 3` padding
loop that appends the team's own season average. -/
def statsFromGames (team : String) (team_games : List Game) : TeamStats :=
  if team_games = [] then defaultTeamStats
  else
    let scores_for := team_games.map (pfOf team)
    let scores_against := team_games.map (paOf team)
    let wins := (team_games.filter (wonBy team)).length
    let total_pf := scores_for.sum
    let total_pa := scores_against.sum
    let games_played := team_games.length
    let last3_pf0 :=
      if scores_for.length ≥ 3 then scores_for.drop (scores_for.length - 3) else scores_for
    let last3_pa0 :=
      if scores_against.length ≥ 3 then
        scores_against.drop (scores_against.length - 3)
      else scores_against
    { winPct := if games_played > 0 then (wins : ℚ) / games_played else 1/2
      ppg := if games_played > 0 then total_pf / games_played else 22
      pag := if games_played > 0 then total_pa / games_played else 22
      yardsPerGame := 350
      yardsAllowedPerGame := 350
      turnoverDiff := 0
      restDays := 7
      last3_pf := last3_pf0 ++ List.replicate (3 - last3_pf0.length) (total_pf / games_played)
      last3_pa := last3_pa0 ++ List.replicate (3 - last3_pa0.length) (total_pa / games_played) }

/-- `calculate_team_stats_historical(team_name, season, week, all_games)`
from `src/training/backtest_historical.py`. -/
def calculate_team_stats_historical (team : String) (season week : ℤ)
    (all_games : List Game) : TeamStats :=
  statsFromGames team (teamGames team season week all_games)

/-- The `np.mean(stats['last3_pf'])` feature of
`backtest_historical.extract_features`. -/
def backtest_last3_pf_feature (st : TeamStats) : ℚ := listMean st.last3_pf

/-- The `np.mean(stats['last3_pa'])` feature of
`backtest_historical.extract_features`. -/
def backtest_last3_pa_feature (st : TeamStats) : ℚ := listMean st.last3_pa

/-! ## Cutoffs -/

/-- An event is strictly before the cutoff `(S, W)` in the lexicographic
season/week order. -/
def beforeCutoff (season week : ℤ) (g : Game) : Bool :=
  decide (g.season < season) || (g.season == season && decide (g.week < week))

/-! ## Home/away splits and streaks
(`src/training/calculate_true_splits.py`, `calculate_splits_and_streaks`) -/

/-- One entry of the `team_history` defaultdict: home/road records, signed
streak and last W/L label (`some true` = last result was a win). -/
structure TeamHistory where
  home_wins : ℕ
  home_losses : ℕ
  road_wins : ℕ
  road_losses : ℕ
  streak : ℤ
  last_result : Option Bool
deriving DecidableEq, Repr

/-- The defaultdict initialiser of `team_history`. -/
def initialHistory : TeamHistory :=
  { home_wins := 0, home_losses := 0, road_wins := 0, road_losses := 0,
    streak := 0, last_result := none }

/-- The whole `team_history` mapping, one `TeamHistory` per team id. -/
def HistoryState : Type := ℕ → TeamHistory

/-- Win percentage with the source's guard:
`wins / total if total > 0 else 0.5`. -/
def winPctOr (w l : ℕ) : ℚ :=
  if w + l > 0 then (w : ℚ) / ((w : ℚ) + (l : ℚ)) else 1/2

/-- One side's entry recorded into `game_splits` (home win pct, road win pct
and streak of that team, before the game). -/
structure SplitEntry where
  homeWinPct : ℚ
  roadWinPct : ℚ
  streak : ℤ
deriving DecidableEq, Repr

/-- The `game_splits` entry computed from a team's history before a game. -/
def splitsOf (h : TeamHistory) : SplitEntry :=
  { homeWinPct := winPctOr h.home_wins h.home_losses,
    roadWinPct := winPctOr h.road_wins h.road_losses,
    streak := h.streak }

/-- The home-team update block of `calculate_splits_and_streaks`
(`home_wins`/`home_losses`, streak increment or reset, `last_result`). -/
def updateHome (h : TeamHistory) (home_won : Bool) : TeamHistory :=
  if home_won then
    { h with home_wins := h.home_wins + 1,
             streak := if h.last_result = some true then h.streak + 1 else 1,
             last_result := some true }
  else
    { h with home_losses := h.home_losses + 1,
             streak := if h.last_result = some false then h.streak - 1 else -1,
             last_result := some false }

/-- The away-team update block of `calculate_splits_and_streaks`
(`road_wins`/`road_losses`; the away team won iff the home team did not). -/
def updateAway (h : TeamHistory) (home_won : Bool) : TeamHistory :=
  if !home_won then
    { h with road_wins := h.road_wins + 1,
             streak := if h.last_result = some true then h.streak + 1 else 1,
             last_result := some true }
  else
    { h with road_losses := h.road_losses + 1,
             streak := if h.last_result = some false then h.streak - 1 else -1,
             last_result := some false }

/-- The per-game recomputation `home_won = homeScore > awayScore` used by
`calculate_splits_and_streaks`. -/
def homeWonOf (g : Game) : Bool := decide (g.outcome.homeScore > g.outcome.awayScore)

/-- One iteration of the main loop: update the home team's history, then the
away team's. -/
def processGame (st : HistoryState) (g : Game) : HistoryState :=
  let st1 := Function.update st g.homeTeam.id (updateHome (st g.homeTeam.id) (homeWonOf g))
  Function.update st1 g.awayTeam.id (updateAway (st1 g.awayTeam.id) (homeWonOf g))

/-- The `team_history` state after folding the loop over a list of games. -/
def statesAfter (gs : List Game) : HistoryState :=
  gs.foldl processGame (fun _ => initialHistory)

/-- The `game_splits` dictionary built by the loop, one record per game in
chronological order: game id, home-team entry, away-team entry, each taken
from the state before that game is folded in. -/
def calcSplitsAux (st : HistoryState) : List Game → List (ℕ × SplitEntry × SplitEntry)
  | [] => []
  | g :: rest =>
      (g.gameId, splitsOf (st g.homeTeam.id), splitsOf (st g.awayTeam.id)) ::
        calcSplitsAux (processGame st g) rest

/-- `calculate_splits_and_streaks(all_games)`: sort chronologically, then run
the loop.  (Python's `sorted` with the date key; ties keep input order, as
`List.mergeSort` does.) -/
def calculate_splits_and_streaks (all_games : List Game) :
    List (ℕ × SplitEntry × SplitEntry) :=
  calcSplitsAux (fun _ => initialHistory)
    (all_games.mergeSort (fun g1 g2 => g1.date ≤ g2.date))

/-! ## ATS settlement

The per-game settlement appears inline in the scripts' loops, in two shapes:

* boolean comparison (`walk_forward_validation.calculate_ats_performance`,
  `backtest_historical.calculate_ats_performance`,
  `calculate_ats_performance.py`):
  push first, then `model_takes_home == home_covered`;
* sign product (`fix_ats_calculation.py`, `season_by_season.py`,
  `add_home_away_features.calculate_ats`):
  push first, then `(pred - vegas) * (actual - vegas) > 0`.
-/

/-- Settlement outcome of one bet. -/
inductive ATSOutcome where
  | WIN : ATSOutcome
  | LOSS : ATSOutcome
  | PUSH : ATSOutcome
deriving DecidableEq, Repr

/-- Loop body of `calculate_ats_performance`
(`src/training/walk_forward_validation.py`, identical in
`backtest_historical.py` and `calculate_ats_performance.py`):
`model_takes_home = pred > vegas`, `home_covered = actual > vegas`, push if
`abs(actual - vegas) < 0.5`, win if the two booleans agree, else loss. -/
def settleBool (pred vegas actual : ℚ) : ATSOutcome :=
  let model_takes_home := decide (pred > vegas)
  let home_covered := decide (actual > vegas)
  if |actual - vegas| < 1/2 then ATSOutcome.PUSH
  else if model_takes_home = home_covered then ATSOutcome.WIN
  else ATSOutcome.LOSS

/-- Loop body of `fix_ats_calculation` (identical in `season_by_season.py`
and `add_home_away_features.calculate_ats`): push if
`abs(actual - vegas) < 0.5`, win if
`(pred - vegas) * (actual - vegas) > 0`, else loss. -/
def settleProduct (pred vegas actual : ℚ) : ATSOutcome :=
  if |actual - vegas| < 1/2 then ATSOutcome.PUSH
  else if (pred - vegas) * (actual - vegas) > 0 then ATSOutcome.WIN
  else ATSOutcome.LOSS

/-- The sign function of the specification
(`sign(x) = +1 / 0 / -1`), used to state the win/loss rule. -/
def ratSign (q : ℚ) : ℤ :=
  if 0 < q then 1 else if q < 0 then -1 else 0

/-! ## Aggregate scoring -/

/-- Aggregate dictionary returned by the `calculate_ats_performance`
functions (walk-forward and backtest versions; the fields are the ones the
claims concern). -/
structure ATSReport where
  wins : ℕ
  losses : ℕ
  pushes : ℕ
  total_bets : ℕ
  win_rate : ℚ
  roi : ℚ
  profit : ℚ
deriving DecidableEq, Repr

/-- The aggregate computation shared verbatim by
`walk_forward_validation.calculate_ats_performance`,
`backtest_historical.calculate_ats_performance`, `season_by_season.py` and
`fix_ats_calculation.py`: `total_bets = wins + losses`,
`win_rate = wins / total_bets * 100` (guarded), `profit = wins*100 -
losses*110`, `roi = profit / (total_bets * 110) * 100` (guarded). -/
def atsReportOf (wins losses pushes : ℕ) : ATSReport :=
  let total_bets := wins + losses
  let profit : ℚ := (wins : ℚ) * 100 - (losses : ℚ) * 110
  { wins := wins
    losses := losses
    pushes := pushes
    total_bets := total_bets
    win_rate := if total_bets > 0 then (wins : ℚ) / (total_bets : ℚ) * 100 else 0
    roi := if total_bets > 0 then profit / ((total_bets : ℚ) * 110) * 100 else 0
    profit := profit }

/-- Win/loss/push tally of a list of settled outcomes. -/
def tallyOutcomes (os : List ATSOutcome) : ℕ × ℕ × ℕ :=
  os.foldl
    (fun acc o =>
      match o with
      | ATSOutcome.WIN => (acc.1 + 1, acc.2.1, acc.2.2)
      | ATSOutcome.LOSS => (acc.1, acc.2.1 + 1, acc.2.2)
      | ATSOutcome.PUSH => (acc.1, acc.2.1, acc.2.2 + 1))
    (0, 0, 0)

/-- One prediction row fed to `calculate_ats_performance` in
`walk_forward_validation.py` (the fields its loop reads). -/
structure PredRow where
  predicted_spread : ℚ
  vegas_spread : ℚ
  actual_spread : ℚ
deriving DecidableEq, Repr

/-- `calculate_ats_performance(predictions)` of
`src/training/walk_forward_validation.py`: `None` on the empty list,
otherwise the tally of the boolean-shape settlements plus the aggregate
formulas. -/
def calculate_ats_performance (predictions : List PredRow) : Option ATSReport :=
  if predictions = [] then none
  else
    let t := tallyOutcomes (predictions.map
      (fun p => settleBool p.predicted_spread p.vegas_spread p.actual_spread))
    some (atsReportOf t.1 t.2.1 t.2.2)

/-! ## Missing market lines

`season_by_season.py` (and `add_home_away_features.calculate_ats`) iterate
over `(game, prediction)` pairs and `continue` on games without a `lines`
entry, so such games reach no tally. -/

/-- One iteration of the per-season tally loop of
`season_by_season_performance`: `continue` on a game without lines,
otherwise settle with the product rule and bump the matching counter. -/
def seasonTallyStep (acc : ℕ × ℕ × ℕ) (gp : Game × ℚ) : ℕ × ℕ × ℕ :=
  match gp.1.lines with
  | none => acc
  | some ln =>
      match settleProduct gp.2 ln.spread gp.1.outcome.actualSpread with
      | ATSOutcome.WIN => (acc.1 + 1, acc.2.1, acc.2.2)
      | ATSOutcome.LOSS => (acc.1, acc.2.1 + 1, acc.2.2)
      | ATSOutcome.PUSH => (acc.1, acc.2.1, acc.2.2 + 1)

/-- The tally loop of `season_by_season_performance` over the test games
zipped with their predictions: skip games without lines, settle the rest
with the product rule. -/
def seasonTallyPairs (pairs : List (Game × ℚ)) : ℕ × ℕ × ℕ :=
  pairs.foldl seasonTallyStep (0, 0, 0)

/-! ## Training-data preparation and walk-forward split
(`src/training/walk_forward_validation.py`) -/

/-- The last-3 feature of `prepare_training_data`
(`walk_forward_validation.py`, lines 40-46):
`sum(last3.get('pointsScored', [0])) / max(len(...), 1)` — the mean over the
games actually present. -/
def wf_last3_avg (stored : Option (List ℚ)) : ℚ :=
  let l := stored.getD [0]
  l.sum / (max l.length 1 : ℕ)

/-- The last-3 feature of `MLPredictor._extract_features`
(`ml_predictor.py`, lines 92-99) and of `season_by_season.extract_features`:
`sum(last3.get('pointsScored', [0,0,0])) / 3` — the divisor is always 3, so
a list holding fewer than 3 games is implicitly padded with zeros. -/
def ml_last3_avg (stored : Option (List ℚ)) : ℚ :=
  (stored.getD [0, 0, 0]).sum / 3

/-- One row of the dataframe built by `prepare_training_data`. -/
structure TrainRecord where
  gameId : ℕ
  season : ℤ
  week : ℤ
  home_winPct : ℚ
  home_ppg : ℚ
  home_pag : ℚ
  home_yards_pg : ℚ
  home_yards_allowed_pg : ℚ
  home_turnover_diff : ℚ
  away_winPct : ℚ
  away_ppg : ℚ
  away_pag : ℚ
  away_yards_pg : ℚ
  away_yards_allowed_pg : ℚ
  away_turnover_diff : ℚ
  home_last3_ppf : ℚ
  home_last3_ppa : ℚ
  away_last3_ppf : ℚ
  away_last3_ppa : ℚ
  home_rest_days : ℚ
  away_rest_days : ℚ
  rest_days_diff : ℚ
  ppg_differential : ℚ
  pag_differential : ℚ
  winPct_differential : ℚ
  yards_differential : ℚ
  turnover_differential : ℚ
  is_divisional : ℚ
  is_conference : ℚ
  is_thursday_night : ℚ
  is_monday_night : ℚ
  is_sunday_night : ℚ
  temperature : ℚ
  wind_speed : ℚ
  precipitation : ℚ
  is_dome : ℚ
  actual_spread : ℚ
  vegas_spread : ℚ
  home_score : ℚ
  away_score : ℚ

/-- The record built for one game by `prepare_training_data`, given its
(present) market line. -/
def mkTrainRecord (g : Game) (ln : Lines) : TrainRecord :=
  { gameId := g.gameId
    season := g.season
    week := g.week
    home_winPct := g.homeTeam.winPct
    home_ppg := g.homeTeam.ppg
    home_pag := g.homeTeam.pag
    home_yards_pg := g.homeTeam.yardsPerGame
    home_yards_allowed_pg := g.homeTeam.yardsAllowedPerGame
    home_turnover_diff := g.homeTeam.turnoverDiff
    away_winPct := g.awayTeam.winPct
    away_ppg := g.awayTeam.ppg
    away_pag := g.awayTeam.pag
    away_yards_pg := g.awayTeam.yardsPerGame
    away_yards_allowed_pg := g.awayTeam.yardsAllowedPerGame
    away_turnover_diff := g.awayTeam.turnoverDiff
    home_last3_ppf := wf_last3_avg g.homeTeam.last3Games.pointsScored
    home_last3_ppa := wf_last3_avg g.homeTeam.last3Games.pointsAllowed
    away_last3_ppf := wf_last3_avg g.awayTeam.last3Games.pointsScored
    away_last3_ppa := wf_last3_avg g.awayTeam.last3Games.pointsAllowed
    home_rest_days := g.homeTeam.restDays.getD 7
    away_rest_days := g.awayTeam.restDays.getD 7
    rest_days_diff := g.matchup.restDaysDiff.getD 0
    ppg_differential := g.homeTeam.ppg - g.awayTeam.ppg
    pag_differential := g.awayTeam.pag - g.homeTeam.pag
    winPct_differential := g.homeTeam.winPct - g.awayTeam.winPct
    yards_differential := g.homeTeam.yardsPerGame - g.awayTeam.yardsPerGame
    turnover_differential := g.homeTeam.turnoverDiff - g.awayTeam.turnoverDiff
    is_divisional := if g.matchup.isDivisional then 1 else 0
    is_conference := if g.matchup.isConference then 1 else 0
    is_thursday_night := if g.matchup.isThursdayNight.getD false then 1 else 0
    is_monday_night := if g.matchup.isMondayNight.getD false then 1 else 0
    is_sunday_night := if g.matchup.isSundayNight.getD false then 1 else 0
    temperature := g.weather.temperature.getD 65
    wind_speed := g.weather.windSpeed.getD 5
    precipitation := g.weather.precipitation.getD 0
    is_dome := if g.weather.isDome.getD false then 1 else 0
    actual_spread := g.outcome.actualSpread
    vegas_spread := ln.spread
    home_score := g.outcome.homeScore
    away_score := g.outcome.awayScore }

/-- `prepare_training_data(games)` of `walk_forward_validation.py`: skip
games without Vegas lines, build one record per remaining game. -/
def prepare_training_data (games : List Game) : List TrainRecord :=
  games.filterMap (fun g =>
    match g.lines with
    | none => none
    | some ln => some (mkTrainRecord g ln))

/-- The training slice of `walk_forward_validate` for one test season:
`df[df['season'] < test_season]`. -/
def walkForwardTrain (df : List TrainRecord) (test_season : ℤ) : List TrainRecord :=
  df.filter (fun r => decide (r.season < test_season))

/-- The test slice of `walk_forward_validate`:
`df[df['season'] == test_season]`. -/
def walkForwardTest (df : List TrainRecord) (test_season : ℤ) : List TrainRecord :=
  df.filter (fun r => r.season == test_season)

/-! ## Season-by-season split (`src/training/season_by_season.py`) -/

/-- The distinct seasons of the store in first-appearance order (the
iteration order of the `seasons` dict built by
`season_by_season_performance`). -/
def seasonKeys (games : List Game) : List ℤ :=
  games.foldl (fun acc g => if g.season ∈ acc then acc else acc ++ [g.season]) []

/-- The games of one season, in input order (one `seasons[s]` bucket). -/
def gamesOfSeason (games : List Game) (s : ℤ) : List Game :=
  games.filter (fun g => g.season == s)

/-- The training set built by `season_by_season_performance` for a test
season: the concatenation of every bucket whose season key differs from the
test season — including seasons after it. -/
def seasonBySeasonTrain (games : List Game) (test_season : ℤ) : List Game :=
  ((seasonKeys games).filter (fun s => !(s == test_season))).flatMap
    (gamesOfSeason games)

/-! ## Model confidence (`src/training/ml_predictor.py`) -/

/-- Round half to even at integer precision, as Python's `round`. -/
def roundHalfEvenInt (q : ℚ) : ℤ :=
  if q - ⌊q⌋ < 1/2 then ⌊q⌋
  else if q - ⌊q⌋ > 1/2 then ⌊q⌋ + 1
  else if Even ⌊q⌋ then ⌊q⌋ else ⌊q⌋ + 1

/-- Python's `round(x, 1)`. -/
def pythonRound1 (q : ℚ) : ℚ := (roundHalfEvenInt (q * 10) : ℚ) / 10

/-- `MLPredictor._calculate_confidence(spread, total)`
(`ml_predictor.py`, lines 153-171), with the float constants `0.7`, `0.3`,
`0.45` as exact rationals. -/
def calculate_confidence (spread total : ℚ) : ℚ :=
  let spread_confidence := min (|spread| / 14) 1 * 100
  let total_deviation := |total - 45|
  let total_confidence := min (total_deviation / 15) 1 * 100
  let confidence := spread_confidence * (7/10) + total_confidence * (3/10)
  pythonRound1 (50 + confidence * (45/100))

/-! ## Streak machinery (claims C6 and C1/C8 share these definitions) -/

/-- Projection of a team's history onto the streak-relevant part. -/
structure StreakState where
  streak : ℤ
  last_result : Option Bool
deriving DecidableEq, Repr

/-- The streak/last-result transition of `calculate_splits_and_streaks`,
applied to a single result of the team (`true` = win): extend the streak
when the label repeats, reset to plus or minus one when it flips. -/
def streakStep (s : StreakState) (won : Bool) : StreakState :=
  if won then
    { streak := if s.last_result = some true then s.streak + 1 else 1,
      last_result := some true }
  else
    { streak := if s.last_result = some false then s.streak - 1 else -1,
      last_result := some false }

/-- The streak-relevant part of a `TeamHistory`. -/
def projStreak (h : TeamHistory) : StreakState :=
  { streak := h.streak, last_result := h.last_result }

/-- Length of the constant block at the front of a list equal to `x`. -/
def countLead (x : Bool) : List Bool → ℕ
  | [] => 0
  | y :: t => if y = x then countLead x t + 1 else 0

/-- Specification-side streak: the signed length of the maximal constant
suffix of the result sequence, positive for wins, negative for losses,
zero for the empty sequence (spec section 4.1, `currentStreak`). -/
def specTrailingStreak (l : List Bool) : ℤ :=
  match l.reverse with
  | [] => 0
  | x :: t => (if x then 1 else -1) * (1 + (countLead x t : ℤ))

/-- The results `team` collects from one processed game (home result first,
then away result; a team appears at most once unless the store is
degenerate). -/
def gameResults (team : ℕ) (g : Game) : List Bool :=
  (if g.homeTeam.id = team then [homeWonOf g] else []) ++
    (if g.awayTeam.id = team then [!homeWonOf g] else [])

/-- The chronological W/L labels of `team` over a list of games. -/
def resultsOf (team : ℕ) (gs : List Game) : List Bool :=
  gs.flatMap (gameResults team)

/-! ## Concrete store fragments used by witnesses and counterexamples -/

/-- A team entry with neutral numeric fields. -/
def demoTeam (i : ℕ) (nm : String) : TeamData :=
  { id := i, name := nm, winPct := 0, ppg := 0, pag := 0, yardsPerGame := 0,
    yardsAllowedPerGame := 0, turnoverDiff := 0, restDays := none,
    last3Games := { pointsScored := none, pointsAllowed := none } }

/-- A game record with only the claim-relevant fields varying. -/
def mkGame (gid : ℕ) (dt : String) (season week : ℤ) (home away : TeamData)
    (hs ascore : ℚ) (hw : Bool) (spr : ℚ) (ln : Option Lines) : Game :=
  { gameId := gid, date := dt, season := season, week := week,
    homeTeam := home, awayTeam := away,
    matchup := { isDivisional := false, isConference := false,
                 isThursdayNight := none, isMondayNight := none,
                 isSundayNight := none, restDaysDiff := none },
    weather := { temperature := none, windSpeed := none,
                 precipitation := none, isDome := none },
    outcome := { homeScore := hs, awayScore := ascore, homeWon := hw,
                 actualSpread := spr },
    lines := ln }

/-- A settled week-1 game of season 2024, strictly before cutoff (2024, 5). -/
def gPast : Game :=
  mkGame 1 "2024-09-08" 2024 1 (demoTeam 1 "A") (demoTeam 2 "B") 27 17 true 10 none

/-- A settled week-5 game of season 2024, at/after cutoff (2024, 5). -/
def gFuture : Game :=
  mkGame 2 "2024-10-06" 2024 5 (demoTeam 1 "A") (demoTeam 2 "B") 20 23 false (-3) none

/-- A season-2022 game. -/
def g22 : Game :=
  mkGame 10 "2022-09-11" 2022 1 (demoTeam 1 "A") (demoTeam 2 "B") 20 10 true 10 none

/-- A season-2023 game. -/
def g23 : Game :=
  mkGame 11 "2023-09-10" 2023 1 (demoTeam 1 "A") (demoTeam 2 "B") 14 24 false (-10) none

/-- A season-2024 game. -/
def g24 : Game :=
  mkGame 12 "2024-09-08" 2024 1 (demoTeam 1 "A") (demoTeam 2 "B") 30 20 true 10 none

/-- A game that carries a market line. -/
def gLine22 : Game :=
  mkGame 13 "2022-10-02" 2022 4 (demoTeam 1 "A") (demoTeam 2 "B") 24 20 true 4
    (some { spread := -3, total := 44 })

/-- A game without a market line. -/
def gNoLine : Game :=
  mkGame 14 "2022-10-09" 2022 5 (demoTeam 1 "A") (demoTeam 2 "B") 17 13 true 4 none

/-- The training record `prepare_training_data` builds for `gLine22`. -/
def r22 : TrainRecord := mkTrainRecord gLine22 { spread := -3, total := 44 }

/-! ## Theorems -/

theorem teamGameFilter_implies_beforeCutoff (team : String) (season week : ℤ) (g : Game)
    (h : teamGameFilter team season week g = true) : beforeCutoff season week g = true := by
  simp only [teamGameFilter, Bool.and_eq_true, beq_iff_eq, decide_eq_true_eq] at h
  simp only [beforeCutoff, Bool.or_eq_true, Bool.and_eq_true, beq_iff_eq, decide_eq_true_eq]
  exact Or.inr ⟨h.1.1, h.1.2⟩

/-- The `team_games` filter only ever selects events strictly before the
cutoff: filtering the store down to pre-cutoff events first changes
nothing. -/
theorem teamGames_eq_teamGames_beforeCutoff (team : String) (season week : ℤ)
    (es : List Game) :
    teamGames team season week es =
      teamGames team season week (es.filter (beforeCutoff season week)) := by
  unfold teamGames
  rw [List.filter_filter]
  apply List.filter_congr
  intro g hg
  cases h : teamGameFilter team season week g with
  | false => simp [h]
  | true => simp [h, teamGameFilter_implies_beforeCutoff team season week g h]

/-! ## Helper lemmas -/

theorem ratSign_of_pos {q : ℚ} (h : 0 < q) : ratSign q = 1 := by
  simp [ratSign, h]

theorem ratSign_of_neg {q : ℚ} (h : q < 0) : ratSign q = -1 := by
  rw [ratSign, if_neg (by linarith), if_pos h]

theorem ratSign_of_zero {q : ℚ} (h : q = 0) : ratSign q = 0 := by
  simp [ratSign, h]

theorem ratSign_eq_iff {x y : ℚ} (hx : x ≠ 0) (hy : y ≠ 0) :
    ratSign x = ratSign y ↔ (0 < x ↔ 0 < y) := by
  rcases hx.lt_or_lt with h1 | h1 <;> rcases hy.lt_or_lt with h2 | h2
  · simp only [ratSign_of_neg h1, ratSign_of_neg h2]
    constructor
    · intro _; constructor <;> intro hcc <;> linarith
    · intro _; trivial
  · simp only [ratSign_of_neg h1, ratSign_of_pos h2]
    constructor
    · intro hc; exact absurd hc (by norm_num)
    · intro hc; exact absurd (hc.mpr h2) (by linarith)
  · simp only [ratSign_of_pos h1, ratSign_of_neg h2]
    constructor
    · intro hc; exact absurd hc (by norm_num)
    · intro hc; exact absurd (hc.mp h1) (by linarith)
  · simp only [ratSign_of_pos h1, ratSign_of_pos h2]
    constructor
    · intro _; constructor <;> intro hcc <;> linarith
    · intro _; trivial

theorem mul_pos_iff_signs {x y : ℚ} (hx : x ≠ 0) (hy : y ≠ 0) :
    0 < x * y ↔ (0 < x ↔ 0 < y) := by
  rcases hx.lt_or_lt with h1 | h1 <;> rcases hy.lt_or_lt with h2 | h2
  · constructor
    · intro _; constructor <;> intro <;> linarith
    · intro _; exact mul_pos_of_neg_of_neg h1 h2
  · constructor
    · intro hc; exact absurd hc (by nlinarith)
    · intro hc; exact absurd (hc.mpr h2) (by linarith)
  · constructor
    · intro hc; exact absurd hc (by nlinarith)
    · intro hc; exact absurd (hc.mp h1) (by linarith)
  · constructor
    · intro _; constructor <;> intro <;> linarith
    · intro _; exact mul_pos h1 h2

/-! ## Claims about ATS settlement -/

/-- C4: for every predicted value, market line and actual value, both
settlement shapes return PUSH exactly when `abs(actual - line) < 0.5`,
independently of the prediction; the push branch is tested first, so it
takes priority over WIN/LOSS. -/
theorem push_tolerance_iff (pred vegas actual : ℚ) :
    (settleBool pred vegas actual = ATSOutcome.PUSH ↔ |actual - vegas| < 1/2) ∧
    (settleProduct pred vegas actual = ATSOutcome.PUSH ↔ |actual - vegas| < 1/2) := by
  constructor
  · unfold settleBool
    by_cases h : |actual - vegas| < 1/2
    · rw [if_pos h]
      exact ⟨fun _ => h, fun _ => rfl⟩
    · rw [if_neg h]
      constructor
      · intro hw
        split at hw <;> exact absurd hw (by simp)
      · intro hc; exact absurd hc h
  · unfold settleProduct
    by_cases h : |actual - vegas| < 1/2
    · rw [if_pos h]
      exact ⟨fun _ => h, fun _ => rfl⟩
    · rw [if_neg h]
      constructor
      · intro hw
        split at hw <;> exact absurd hw (by simp)
      · intro hc; exact absurd hc h

/-- C3, counterexample: at `(pred, line, actual) = (3, 3, 1)` the game is
not a push, `sign(pred - line) = 0` differs from `sign(actual - line) =
-1`, yet the boolean-shape settlement used by
`walk_forward_validation.calculate_ats_performance` returns WIN — so a
prediction exactly equal to the line on a non-push game CAN be a WIN,
contradicting the claim. -/
theorem settle_equal_pred_counterexample :
    ¬ (|(1 : ℚ) - 3| < 1/2) ∧
    settleBool 3 3 1 = ATSOutcome.WIN ∧
    ratSign ((3 : ℚ) - 3) ≠ ratSign ((1 : ℚ) - 3) := by
  refine ⟨by norm_num, ?_, ?_⟩
  · unfold settleBool
    rw [if_neg (by norm_num), decide_eq_false (by norm_num), decide_eq_false (by norm_num),
      if_pos rfl]
  · rw [ratSign_of_zero (by norm_num), ratSign_of_neg (by norm_num)]
    norm_num

/-- C3, amended: on a non-push game, the boolean-shape settlement
(`walk_forward_validation.py`, `backtest_historical.py`,
`calculate_ats_performance.py`) returns WIN exactly when
`(pred > line) == (actual > line)`; whenever the prediction differs from
the line this coincides with the claimed sign-match rule (and LOSS is its
negation), but a prediction exactly equal to the line is treated as taking
the away side.  The product-shape settlement (`fix_ats_calculation.py`,
`season_by_season.py`, `add_home_away_features.py`) satisfies the claimed
sign-match rule for every prediction, including one equal to the line. -/
theorem settle_win_loss_amended (pred vegas actual : ℚ)
    (hp : ¬ |actual - vegas| < 1/2) :
    (settleBool pred vegas actual = ATSOutcome.WIN ↔ (vegas < pred ↔ vegas < actual)) ∧
    (settleBool pred vegas actual ≠ ATSOutcome.WIN →
      settleBool pred vegas actual = ATSOutcome.LOSS) ∧
    (settleProduct pred vegas actual = ATSOutcome.WIN ↔
      ratSign (pred - vegas) = ratSign (actual - vegas)) ∧
    (settleProduct pred vegas actual ≠ ATSOutcome.WIN →
      settleProduct pred vegas actual = ATSOutcome.LOSS) ∧
    (pred ≠ vegas →
      ((settleBool pred vegas actual = ATSOutcome.WIN ↔
          ratSign (pred - vegas) = ratSign (actual - vegas)) ∧
       (settleBool pred vegas actual = ATSOutcome.LOSS ↔
          ¬ ratSign (pred - vegas) = ratSign (actual - vegas)))) := by
  have hav : actual ≠ vegas := by
    intro he
    exact hp (by rw [he]; norm_num)
  have havs : actual - vegas ≠ 0 := sub_ne_zero_of_ne hav
  have hBool : settleBool pred vegas actual = ATSOutcome.WIN ↔
      (vegas < pred ↔ vegas < actual) := by
    unfold settleBool
    rw [if_neg hp]
    by_cases hb : decide (pred > vegas) = decide (actual > vegas)
    · rw [if_pos hb]
      rw [decide_eq_decide] at hb
      simp [hb]
    · rw [if_neg hb]
      rw [decide_eq_decide] at hb
      simp only [gt_iff_lt] at hb
      simp [hb]
  have hBoolLoss : settleBool pred vegas actual ≠ ATSOutcome.WIN →
      settleBool pred vegas actual = ATSOutcome.LOSS := by
    unfold settleBool
    rw [if_neg hp]
    split <;> simp
  have hProd : settleProduct pred vegas actual = ATSOutcome.WIN ↔
      ratSign (pred - vegas) = ratSign (actual - vegas) := by
    unfold settleProduct
    rw [if_neg hp]
    by_cases hpe : pred = vegas
    · have h0 : pred - vegas = 0 := by rw [hpe]; ring
      rw [if_neg (by rw [h0]; norm_num)]
      rw [ratSign_of_zero h0]
      constructor
      · intro hc; exact absurd hc (by simp)
      · intro hc
        rcases havs.lt_or_lt with h2 | h2
        · rw [ratSign_of_neg h2] at hc; exact absurd hc (by norm_num)
        · rw [ratSign_of_pos h2] at hc; exact absurd hc (by norm_num)
    · have hps : pred - vegas ≠ 0 := sub_ne_zero_of_ne hpe
      rw [ratSign_eq_iff hps havs]
      by_cases hgt : 0 < (pred - vegas) * (actual - vegas)
      · rw [if_pos hgt]
        exact ⟨fun _ => (mul_pos_iff_signs hps havs).mp hgt, fun _ => rfl⟩
      · rw [if_neg hgt]
        constructor
        · intro hc; exact absurd hc (by simp)
        · intro hc; exact absurd ((mul_pos_iff_signs hps havs).mpr hc) hgt
  have hProdLoss : settleProduct pred vegas actual ≠ ATSOutcome.WIN →
      settleProduct pred vegas actual = ATSOutcome.LOSS := by
    unfold settleProduct
    rw [if_neg hp]
    split <;> simp
  refine ⟨hBool, hBoolLoss, hProd, hProdLoss, fun hpe => ?_⟩
  have hps : pred - vegas ≠ 0 := sub_ne_zero_of_ne hpe
  have hsub : (vegas < pred ↔ vegas < actual) ↔
      ratSign (pred - vegas) = ratSign (actual - vegas) := by
    rw [ratSign_eq_iff hps havs, sub_pos, sub_pos]
  constructor
  · rw [hBool, hsub]
  · constructor
    · intro hl hc
      have : settleBool pred vegas actual = ATSOutcome.WIN := by
        rw [hBool, hsub]; exact hc
      rw [hl] at this
      exact absurd this (by simp)
    · intro hc
      apply hBoolLoss
      intro hw
      exact hc (hsub.mp (hBool.mp hw))

/-- C3 amended, witness: the spec's own scenario `pred = -5.0`,
`line = -3.0`, `actual = -7.0` (not a push, prediction differs from the
line): both settlement shapes yield WIN, and the sign-match rule holds. -/
theorem settle_win_loss_amended_witness :
    ¬ (|(-7 : ℚ) - (-3)| < 1/2) ∧
    (settleBool (-5) (-3) (-7) = ATSOutcome.WIN ↔
      ratSign ((-5 : ℚ) - (-3)) = ratSign ((-7 : ℚ) - (-3))) ∧
    settleBool (-5) (-3) (-7) = ATSOutcome.WIN := by
  have h := settle_win_loss_amended (-5) (-3) (-7) (by norm_num)
  have h5 := (h.2.2.2.2 (by norm_num)).1
  refine ⟨by norm_num, h5, ?_⟩
  rw [h.1]
  constructor <;> intro <;> linarith

/-! ## Claim about aggregate scoring -/

/-- C7: whenever `wins + losses > 0`, the aggregate report (all scripts
share these formulas) satisfies `win_rate = wins / (wins + losses) * 100`
with pushes excluded from the denominator,
`profit = wins * 100 - losses * 110`, and
`roi = profit / ((wins + losses) * 110) * 100`. -/
theorem aggregate_math (wins losses pushes : ℕ) (h : 0 < wins + losses) :
    (atsReportOf wins losses pushes).win_rate =
        (wins : ℚ) / ((wins : ℚ) + (losses : ℚ)) * 100 ∧
    (atsReportOf wins losses pushes).profit = (wins : ℚ) * 100 - (losses : ℚ) * 110 ∧
    (atsReportOf wins losses pushes).roi =
        ((wins : ℚ) * 100 - (losses : ℚ) * 110) /
          (((wins : ℚ) + (losses : ℚ)) * 110) * 100 := by
  refine ⟨?_, ?_, ?_⟩
  · simp only [atsReportOf]
    rw [if_pos h]
    push_cast
    ring
  · simp only [atsReportOf]
  · simp only [atsReportOf]
    rw [if_pos h]
    push_cast
    ring

/-- C7, witness: the claim's concrete instance `wins = 55, losses = 45`
gives a 55% win rate, a profit of 550 and an ROI of 5%. -/
theorem aggregate_math_witness :
    (0 : ℕ) < 55 + 45 ∧
    (atsReportOf 55 45 0).win_rate = 55 ∧
    (atsReportOf 55 45 0).profit = 550 ∧
    (atsReportOf 55 45 0).roi = 5 := by
  have hm := aggregate_math 55 45 0 (by norm_num)
  refine ⟨by norm_num, ?_, ?_, ?_⟩
  · rw [hm.1]; norm_num
  · rw [hm.2.1]; norm_num
  · rw [hm.2.2]; norm_num

/-! ## Claim about the confidence score -/

theorem roundHalfEvenInt_bounds {lo hi : ℤ} {q : ℚ} (hlo : (lo : ℚ) ≤ q)
    (hhi : q ≤ (hi : ℚ)) : lo ≤ roundHalfEvenInt q ∧ roundHalfEvenInt q ≤ hi := by
  have hfl : lo ≤ ⌊q⌋ := Int.le_floor.mpr hlo
  have hfu : ⌊q⌋ ≤ hi := by
    have := Int.floor_le_floor hhi
    rwa [Int.floor_intCast] at this
  have hstep : roundHalfEvenInt q = ⌊q⌋ ∨
      (roundHalfEvenInt q = ⌊q⌋ + 1 ∧ ¬ q - ⌊q⌋ < 1/2) := by
    unfold roundHalfEvenInt
    split
    · exact Or.inl rfl
    · split
      · rename_i h1 h2
        exact Or.inr ⟨rfl, h1⟩
      · split
        · rename_i h1 h2 h3
          exact Or.inl rfl
        · rename_i h1 h2 h3
          exact Or.inr ⟨rfl, h1⟩
  rcases hstep with he | ⟨he, hcond⟩
  · exact ⟨by omega, by omega⟩
  · refine ⟨by omega, ?_⟩
    rw [he]
    by_contra hgt
    have hq : hi ≤ ⌊q⌋ := by omega
    have h1 : (hi : ℚ) ≤ (⌊q⌋ : ℚ) := by exact_mod_cast hq
    have h2 : (⌊q⌋ : ℚ) ≤ q := Int.floor_le q
    have h3 : q = (⌊q⌋ : ℚ) := le_antisymm (le_trans hhi h1) h2
    apply hcond
    rw [← h3]
    norm_num

/-- C10: for every predicted spread and total, the confidence returned by
`MLPredictor._calculate_confidence` lies in the closed interval
`[50, 95]`. -/
theorem confidence_bounds (spread total : ℚ) :
    50 ≤ calculate_confidence spread total ∧ calculate_confidence spread total ≤ 95 := by
  have habs : (0 : ℚ) ≤ |spread| / 14 := by positivity
  have habs2 : (0 : ℚ) ≤ |total - 45| / 15 := by positivity
  have hsc0 : (0 : ℚ) ≤ min (|spread| / 14) 1 * 100 := by
    have := le_min habs (by norm_num : (0 : ℚ) ≤ 1)
    nlinarith [this]
  have hsc1 : min (|spread| / 14) 1 * 100 ≤ 100 := by
    have := min_le_right (|spread| / 14) 1
    nlinarith [this]
  have htc0 : (0 : ℚ) ≤ min (|total - 45| / 15) 1 * 100 := by
    have := le_min habs2 (by norm_num : (0 : ℚ) ≤ 1)
    nlinarith [this]
  have htc1 : min (|total - 45| / 15) 1 * 100 ≤ 100 := by
    have := min_le_right (|total - 45| / 15) 1
    nlinarith [this]
  set sc := min (|spread| / 14) 1 * 100 with hsc
  set tc := min (|total - 45| / 15) 1 * 100 with htc
  have hc0 : (0 : ℚ) ≤ sc * (7/10) + tc * (3/10) := by nlinarith
  have hc1 : sc * (7/10) + tc * (3/10) ≤ 100 := by nlinarith
  have hin0 : (500 : ℚ) ≤ (50 + (sc * (7/10) + tc * (3/10)) * (45/100)) * 10 := by nlinarith
  have hin1 : (50 + (sc * (7/10) + tc * (3/10)) * (45/100)) * 10 ≤ (950 : ℚ) := by nlinarith
  have hb := @roundHalfEvenInt_bounds 500 950
    ((50 + (sc * (7/10) + tc * (3/10)) * (45/100)) * 10)
    (by exact_mod_cast hin0) (by exact_mod_cast hin1)
  have hb0 : (500 : ℚ) ≤ (roundHalfEvenInt ((50 + (sc * (7/10) + tc * (3/10)) * (45/100)) * 10) : ℚ) := by
    exact_mod_cast hb.1
  have hb1 : (roundHalfEvenInt ((50 + (sc * (7/10) + tc * (3/10)) * (45/100)) * 10) : ℚ) ≤ 950 := by
    exact_mod_cast hb.2
  unfold calculate_confidence pythonRound1
  constructor
  · simp only [← hsc, ← htc]
    linarith
  · simp only [← hsc, ← htc]
    linarith

theorem projStreak_updateHome (h : TeamHistory) (w : Bool) :
    projStreak (updateHome h w) = streakStep (projStreak h) w := by
  cases w <;> simp [updateHome, streakStep, projStreak]

theorem projStreak_updateAway (h : TeamHistory) (w : Bool) :
    projStreak (updateAway h w) = streakStep (projStreak h) (!w) := by
  cases w <;> simp [updateAway, streakStep, projStreak]

theorem projStreak_processGame (st : HistoryState) (g : Game) (team : ℕ) :
    projStreak (processGame st g team) =
      (gameResults team g).foldl streakStep (projStreak (st team)) := by
  unfold processGame gameResults
  by_cases hh : g.homeTeam.id = team <;> by_cases ha : g.awayTeam.id = team
  · subst hh
    simp only [if_pos rfl, if_pos ha]
    rw [ha, Function.update_same, Function.update_same]
    simp [projStreak_updateAway, projStreak_updateHome]
  · simp only [if_pos hh, if_neg ha, List.append_nil]
    rw [Function.update_noteq (Ne.symm ha)]
    rw [hh, Function.update_same]
    simp [projStreak_updateHome]
  · subst ha
    simp only [if_neg hh, if_pos rfl, List.nil_append]
    rw [Function.update_same]
    rw [Function.update_noteq (Ne.symm hh)]
    simp [projStreak_updateAway]
  · simp only [if_neg hh, if_neg ha]
    rw [Function.update_noteq (Ne.symm ha)]
    rw [Function.update_noteq (Ne.symm hh)]
    simp

theorem foldl_streakStep_spec (l : List Bool) :
    l.foldl streakStep { streak := 0, last_result := none } =
      { streak := specTrailingStreak l, last_result := l.getLast? } := by
  induction l using List.reverseRecOn with
  | nil => rfl
  | append_singleton l b ih =>
      rw [List.foldl_append, ih]
      simp only [List.foldl_cons, List.foldl_nil]
      rw [List.getLast?_concat]
      cases hr : l.reverse with
      | nil =>
          have hl : l = [] := List.reverse_eq_nil_iff.mp hr
          subst hl
          cases b <;> rfl
      | cons x t =>
          have hlast : l.getLast? = some x := by
            rw [← List.head?_reverse, hr]
            rfl
          rw [hlast]
          have hspec : specTrailingStreak l =
              (if x then 1 else -1) * (1 + (countLead x t : ℤ)) := by
            unfold specTrailingStreak
            rw [hr]
          have hspec2 : specTrailingStreak (l ++ [b]) =
              (if b then 1 else -1) * (1 + (countLead b (x :: t) : ℤ)) := by
            unfold specTrailingStreak
            rw [List.reverse_concat', hr]
          rw [hspec, hspec2]
          cases b <;> cases x <;>
            simp [streakStep, countLead] <;> push_cast <;> ring

theorem statesAfter_streak (team : ℕ) (gs : List Game) :
    projStreak (statesAfter gs team) =
      (resultsOf team gs).foldl streakStep { streak := 0, last_result := none } := by
  suffices h : ∀ st : HistoryState,
      projStreak ((gs.foldl processGame st) team) =
        (resultsOf team gs).foldl streakStep (projStreak (st team)) by
    have hini := h (fun _ => initialHistory)
    have : projStreak initialHistory = { streak := 0, last_result := none } := rfl
    rw [statesAfter]
    rw [hini, this]
  induction gs with
  | nil => intro st; rfl
  | cons g t ih =>
      intro st
      simp only [List.foldl_cons]
      rw [ih (processGame st g)]
      have hres : resultsOf team (g :: t) = gameResults team g ++ resultsOf team t := by
        unfold resultsOf
        exact List.flatMap_cons g t (gameResults team)
      rw [hres, List.foldl_append, projStreak_processGame]

/-- C6: the streak maintained by `calculate_splits_and_streaks` is exactly
the signed length of the trailing block of identical W/L labels of the
team's chronological result sequence (positive for wins, negative for
losses, reset to plus or minus one on a label change); in particular the
sequence `[W, W, L, W]` (oldest to newest) yields `+1` and `[W, W, W]`
yields `+3`. -/
theorem current_streak_semantics :
    (∀ (team : ℕ) (gs : List Game),
        (statesAfter gs team).streak = specTrailingStreak (resultsOf team gs)) ∧
    specTrailingStreak [true, true, false, true] = 1 ∧
    specTrailingStreak [true, true, true] = 3 := by
  refine ⟨?_, by decide, by decide⟩
  intro team gs
  have h1 := statesAfter_streak team gs
  have h2 := foldl_streakStep_spec (resultsOf team gs)
  have h3 : projStreak (statesAfter gs team) =
      { streak := specTrailingStreak (resultsOf team gs),
        last_result := (resultsOf team gs).getLast? } := by rw [h1, h2]
  exact congrArg StreakState.streak h3

/-! ## Claim about temporal leakage -/

/-- C1: the point-in-time statistics are unchanged under any modification of
events at or after the cutoff.  First conjunct: two stores that agree on
the events strictly before cutoff `(S, W)` give identical
`calculate_team_stats_historical` snapshots (winPct, ppg, pag, last-3
lists), so adding, removing or mutating an event with
`(season, week) >= (S, W)` changes nothing.  Second conjunct: the
home/away-split and streak entries that `calculate_splits_and_streaks`
records for the first `i` chronological games depend only on those `i`
games, so events later in chronological order cannot affect them. -/
theorem snapshot_no_leakage :
    (∀ (team : String) (season week : ℤ) (es1 es2 : List Game),
        es1.filter (beforeCutoff season week) = es2.filter (beforeCutoff season week) →
        calculate_team_stats_historical team season week es1 =
          calculate_team_stats_historical team season week es2) ∧
    (∀ (st : HistoryState) (l1 l2 : List Game) (i : ℕ),
        l1.take i = l2.take i →
        (calcSplitsAux st l1).take i = (calcSplitsAux st l2).take i) := by
  constructor
  · intro team season week es1 es2 h
    unfold calculate_team_stats_historical
    rw [teamGames_eq_teamGames_beforeCutoff team season week es1,
        teamGames_eq_teamGames_beforeCutoff team season week es2, h]
  · intro st l1 l2 i h
    induction i generalizing st l1 l2 with
    | zero => simp
    | succ n ih =>
        cases l1 with
        | nil =>
            cases l2 with
            | nil => rfl
            | cons g2 t2 => simp at h
        | cons g1 t1 =>
            cases l2 with
            | nil => simp at h
            | cons g2 t2 =>
                simp only [List.take_succ_cons, List.cons.injEq] at h
                obtain ⟨hg, ht⟩ := h
                subst hg
                simp only [calcSplitsAux, List.take_succ_cons, List.cons.injEq]
                exact ⟨trivial, ih _ _ _ ht⟩

/-- C1, witness: adding the future game `gFuture` (week 5, at the cutoff
(2024, 5)) to a store leaves team A's snapshot unchanged, and the splits
recorded for the first game are unchanged when a later game is appended. -/
theorem snapshot_no_leakage_witness :
    ([gPast, gFuture].filter (beforeCutoff 2024 5) =
      [gPast].filter (beforeCutoff 2024 5)) ∧
    calculate_team_stats_historical "A" 2024 5 [gPast, gFuture] =
      calculate_team_stats_historical "A" 2024 5 [gPast] ∧
    ([gPast].take 1 = [gPast, gFuture].take 1) ∧
    (calcSplitsAux (fun _ => initialHistory) [gPast]).take 1 =
      (calcSplitsAux (fun _ => initialHistory) [gPast, gFuture]).take 1 := by
  have hfil : [gPast, gFuture].filter (beforeCutoff 2024 5) =
      [gPast].filter (beforeCutoff 2024 5) := rfl
  have htake : [gPast].take 1 = ([gPast, gFuture] : List Game).take 1 := rfl
  exact ⟨hfil, snapshot_no_leakage.1 "A" 2024 5 _ _ hfil, htake,
    snapshot_no_leakage.2 (fun _ => initialHistory) _ _ 1 htake⟩

/-! ## Claim about the walk-forward training sets -/

/-- C2, counterexample: `season_by_season_performance` (cited by the claim
as a walk-forward evaluation) trains, for test season `b`, on every season
other than `b` — including seasons after it.  Concretely, with store
`[g22, g23, g24]` the training set used for boundary 2022 contains the 2023
game, which is not strictly before 2022, and the training set for boundary
2023 contains the 2024 game. -/
theorem season_by_season_train_counterexample :
    g23 ∈ seasonBySeasonTrain [g22, g23, g24] 2022 ∧
    g23.season = 2023 ∧ ¬ (g23.season < 2022) ∧
    g24 ∈ seasonBySeasonTrain [g22, g23, g24] 2023 ∧
    g24.season = 2024 := by
  have h1 : seasonBySeasonTrain [g22, g23, g24] 2022 = [g23, g24] := rfl
  have h2 : seasonBySeasonTrain [g22, g23, g24] 2023 = [g22, g24] := rfl
  refine ⟨?_, rfl, by decide, ?_, rfl⟩
  · rw [h1]; exact List.mem_cons_self g23 [g24]
  · rw [h2]; exact List.mem_cons_of_mem g22 (List.mem_cons_self g24 [])

/-- C2, amended: in `walk_forward_validate` the training slice for a test
season consists of all and only the prepared records whose season is
strictly smaller; consequently, for the boundaries `[2022, 2023, 2024]`,
the 2023 training set contains the 2022 training set, contains no 2023 or
2024 record, and strictly grows by every 2022 record the store holds.
`season_by_season_performance`, by contrast, trains on every season other
than the test season, including later ones (see the counterexample). -/
theorem walk_forward_train_amended :
    (∀ (df : List TrainRecord) (b : ℤ) (r : TrainRecord),
        r ∈ walkForwardTrain df b ↔ r ∈ df ∧ r.season < b) ∧
    (∀ (df : List TrainRecord) (r : TrainRecord),
        r ∈ walkForwardTrain df 2022 → r ∈ walkForwardTrain df 2023) ∧
    (∀ (df : List TrainRecord) (r : TrainRecord),
        r ∈ walkForwardTrain df 2023 → r.season ≠ 2023 ∧ r.season ≠ 2024) ∧
    (∀ (df : List TrainRecord) (r : TrainRecord),
        r ∈ df → r.season = 2022 →
          r ∈ walkForwardTrain df 2023 ∧ r ∉ walkForwardTrain df 2022) := by
  have hmem : ∀ (df : List TrainRecord) (b : ℤ) (r : TrainRecord),
      r ∈ walkForwardTrain df b ↔ r ∈ df ∧ r.season < b := by
    intro df b r
    unfold walkForwardTrain
    rw [List.mem_filter]
    simp
  refine ⟨hmem, ?_, ?_, ?_⟩
  · intro df r h
    obtain ⟨h1, h2⟩ := (hmem df 2022 r).mp h
    exact (hmem df 2023 r).mpr ⟨h1, by omega⟩
  · intro df r h
    obtain ⟨h1, h2⟩ := (hmem df 2023 r).mp h
    constructor <;> omega
  · intro df r h1 h2
    refine ⟨(hmem df 2023 r).mpr ⟨h1, by omega⟩, ?_⟩
    intro hc
    obtain ⟨h3, h4⟩ := (hmem df 2022 r).mp hc
    omega

/-- C2 amended, witness: the 2022 record `r22` is used when predicting 2023
but not when predicting 2022. -/
theorem walk_forward_train_amended_witness :
    r22 ∈ [r22] ∧ r22.season = 2022 ∧
    r22 ∈ walkForwardTrain [r22] 2023 ∧ r22 ∉ walkForwardTrain [r22] 2022 := by
  have h := walk_forward_train_amended.2.2.2 [r22] r22 (List.mem_singleton.mpr rfl) rfl
  exact ⟨List.mem_singleton.mpr rfl, rfl, h.1, h.2⟩

/-! ## Claim about last-3 padding -/

theorem listMean_append_replicate (l : List ℚ) (h : l ≠ []) (h3 : l.length ≤ 3) :
    listMean (l ++ List.replicate (3 - l.length) (l.sum / l.length)) =
      l.sum / l.length := by
  have hn : l.length ≠ 0 := by simpa using h
  have hnq : ((l.length : ℚ)) ≠ 0 := by exact_mod_cast hn
  unfold listMean
  rw [List.sum_append, List.length_append, List.sum_replicate, List.length_replicate,
    nsmul_eq_mul]
  have hlen : l.length + (3 - l.length) = 3 := by omega
  rw [hlen]
  have hc : ((3 - l.length : ℕ) : ℚ) = 3 - (l.length : ℚ) := by
    push_cast [h3]
    ring
  rw [hc]
  field_simp
  ring

/-- C5, counterexample: for a team whose stored `last3Games.pointsScored`
holds the 2 available games `[21, 24]`, the feature computed by
`MLPredictor._extract_features` (and `season_by_season.extract_features`)
is `45 / 3 = 15` — the zero-padded average — not the team's own running
average `45 / 2 = 22.5` that the claim requires. -/
theorem ml_last3_zero_padding_counterexample :
    ml_last3_avg (some [21, 24]) = 15 ∧
    listMean [21, 24] = 45/2 ∧
    ml_last3_avg (some [21, 24]) ≠ listMean [21, 24] ∧
    ml_last3_avg (some [21, 24]) = ([21, 24, 0] : List ℚ).sum / 3 := by
  refine ⟨by norm_num [ml_last3_avg], by norm_num [listMean],
    by norm_num [ml_last3_avg, listMean], by norm_num [ml_last3_avg]⟩

/-- C5, amended: `backtest_historical.calculate_team_stats_historical` does
pad a short history (1 or 2 prior games) to length 3 with the team's own
season average, so the `np.mean` features equal the team's own running
averages, and `walk_forward_validation.prepare_training_data` averages over
the games actually present (again the running average of the stored games);
but `MLPredictor._extract_features` divides by 3 regardless, which pads
with zeros (see the counterexample). -/
theorem last3_padding_amended (team : String) (season week : ℤ) (es : List Game)
    (h1 : teamGames team season week es ≠ [])
    (h2 : (teamGames team season week es).length < 3) :
    (calculate_team_stats_historical team season week es).last3_pf =
        (teamGames team season week es).map (pfOf team) ++
          List.replicate (3 - (teamGames team season week es).length)
            ((calculate_team_stats_historical team season week es).ppg) ∧
    backtest_last3_pf_feature (calculate_team_stats_historical team season week es) =
      (calculate_team_stats_historical team season week es).ppg ∧
    (calculate_team_stats_historical team season week es).last3_pa =
        (teamGames team season week es).map (paOf team) ++
          List.replicate (3 - (teamGames team season week es).length)
            ((calculate_team_stats_historical team season week es).pag) ∧
    backtest_last3_pa_feature (calculate_team_stats_historical team season week es) =
      (calculate_team_stats_historical team season week es).pag ∧
    (∀ l : List ℚ, l ≠ [] → wf_last3_avg (some l) = listMean l) := by
  have hwf : ∀ l : List ℚ, l ≠ [] → wf_last3_avg (some l) = listMean l := by
    intro l hl
    have hn : l.length ≠ 0 := by simpa using hl
    unfold wf_last3_avg listMean
    simp only [Option.getD_some]
    congr 1
    have : max l.length 1 = l.length := by omega
    rw [this]
  set tg := teamGames team season week es with htg
  have hlen0 : 0 < tg.length := List.length_pos.mpr h1
  have hflen : (tg.map (pfOf team)).length = tg.length := List.length_map _ _
  have halen : (tg.map (paOf team)).length = tg.length := List.length_map _ _
  have hnot3 : ¬ tg.length ≥ 3 := by omega
  have hstats : calculate_team_stats_historical team season week es =
      statsFromGames team tg := rfl
  rw [hstats]
  unfold statsFromGames
  rw [if_neg h1]
  simp only [hflen, halen, if_neg hnot3, if_pos hlen0]
  refine ⟨trivial, ?_, trivial, ?_, hwf⟩
  · unfold backtest_last3_pf_feature
    simp only
    have hmap_ne : tg.map (pfOf team) ≠ [] := by
      intro hc
      rw [hc] at hflen
      simp at hflen
      omega
    have := listMean_append_replicate (tg.map (pfOf team)) hmap_ne (by omega)
    rw [hflen] at this
    exact this
  · unfold backtest_last3_pa_feature
    simp only
    have hmap_ne : tg.map (paOf team) ≠ [] := by
      intro hc
      rw [hc] at halen
      simp at halen
      omega
    have := listMean_append_replicate (tg.map (paOf team)) hmap_ne (by omega)
    rw [halen] at this
    exact this

/-- C5 amended, witness: team A enters cutoff (2024, 5) with the single
prior game `gPast` (27 points for, 17 against); the padded last-3 list is
`[27, 27, 27]` and the last-3 features equal the running averages 27
and 17. -/
theorem last3_padding_amended_witness :
    teamGames "A" 2024 5 [gPast] ≠ [] ∧
    (teamGames "A" 2024 5 [gPast]).length < 3 ∧
    backtest_last3_pf_feature (calculate_team_stats_historical "A" 2024 5 [gPast]) =
      (calculate_team_stats_historical "A" 2024 5 [gPast]).ppg ∧
    wf_last3_avg (some [21, 24]) = ([21, 24] : List ℚ).sum / 2 := by
  have hne : teamGames "A" 2024 5 [gPast] ≠ [] := by
    intro hc
    exact absurd (congrArg List.length hc) (by norm_num [teamGames, gPast, mkGame,
      demoTeam, teamGameFilter])
  have hlt : (teamGames "A" 2024 5 [gPast]).length < 3 := by
    norm_num [teamGames, gPast, mkGame, demoTeam, teamGameFilter]
  have h := last3_padding_amended "A" 2024 5 [gPast] hne hlt
  refine ⟨hne, hlt, h.2.1, ?_⟩
  have h5 := h.2.2.2.2 [21, 24] (by simp)
  rw [h5]
  simp [listMean]

/-! ## Claim about the default snapshot -/

/-- C8: a team with zero prior games gets the documented neutral defaults
and no error: `calculate_team_stats_historical` returns its default
dictionary (with `winPct = 0.5`), a fresh `team_history` entry records
`homeWinPct = roadWinPct = 0.5` and `streak = 0`, and each home/road split
independently falls back to `0.5` whenever its own subset of games is
empty. -/
theorem default_snapshot :
    (∀ (team : String) (season week : ℤ) (es : List Game),
        teamGames team season week es = [] →
        calculate_team_stats_historical team season week es = defaultTeamStats) ∧
    defaultTeamStats.winPct = 1/2 ∧
    splitsOf initialHistory =
      { homeWinPct := 1/2, roadWinPct := 1/2, streak := 0 } ∧
    (∀ h : TeamHistory, h.home_wins = 0 → h.home_losses = 0 →
        (splitsOf h).homeWinPct = 1/2) ∧
    (∀ h : TeamHistory, h.road_wins = 0 → h.road_losses = 0 →
        (splitsOf h).roadWinPct = 1/2) := by
  refine ⟨?_, rfl, rfl, ?_, ?_⟩
  · intro team season week es h
    unfold calculate_team_stats_historical
    rw [h]
    rfl
  · intro h h1 h2
    unfold splitsOf winPctOr
    rw [h1, h2]
    norm_num
  · intro h h1 h2
    unfold splitsOf winPctOr
    rw [h1, h2]
    norm_num

/-- C8, witness: on the empty store team A has no prior games and receives
the default snapshot; a history with road games but no home games still
defaults its home split to 0.5. -/
theorem default_snapshot_witness :
    teamGames "A" 2024 1 [] = [] ∧
    calculate_team_stats_historical "A" 2024 1 [] = defaultTeamStats ∧
    (splitsOf { home_wins := 0, home_losses := 0, road_wins := 3,
                road_losses := 1, streak := 2, last_result := some true }).homeWinPct
      = 1/2 := by
  exact ⟨rfl, default_snapshot.1 "A" 2024 1 [] rfl,
    default_snapshot.2.2.2.1 _ rfl rfl⟩

/-! ## Claim about missing market lines -/

theorem seasonTallyStep_noline (acc : ℕ × ℕ × ℕ) (gp : Game × ℚ)
    (h : gp.1.lines = none) : seasonTallyStep acc gp = acc := by
  unfold seasonTallyStep
  rw [h]

theorem foldl_seasonTallyStep_filter (pairs : List (Game × ℚ)) :
    ∀ acc : ℕ × ℕ × ℕ,
      pairs.foldl seasonTallyStep acc =
        (pairs.filter (fun gp => gp.1.lines.isSome)).foldl seasonTallyStep acc := by
  induction pairs with
  | nil => intro acc; rfl
  | cons gp t ih =>
      intro acc
      rw [List.foldl_cons, List.filter_cons]
      cases h : gp.1.lines with
      | none =>
          rw [seasonTallyStep_noline acc gp h]
          simp only [h, Option.isSome_none, Bool.false_eq_true, if_neg]
          exact ih acc
      | some ln =>
          simp only [h, Option.isSome_some, if_pos]
          rw [List.foldl_cons]
          exact ih _

/-- C9: a game without a market line contributes to no tally.  First two
conjuncts: the `season_by_season_performance` tally equals the tally over
only the games that have a line, and inserting a line-less game (with its
prediction) anywhere changes nothing.  Last two conjuncts:
`walk_forward_validation.prepare_training_data` builds its dataframe from
exactly the games with lines, so a line-less game is excluded from
training, testing and ATS settlement altogether. -/
theorem missing_line_excluded :
    (∀ pairs : List (Game × ℚ),
        seasonTallyPairs pairs =
          seasonTallyPairs (pairs.filter (fun gp => gp.1.lines.isSome))) ∧
    (∀ (l1 l2 : List (Game × ℚ)) (g : Game) (p : ℚ), g.lines = none →
        seasonTallyPairs (l1 ++ (g, p) :: l2) = seasonTallyPairs (l1 ++ l2)) ∧
    (∀ gs : List Game,
        prepare_training_data gs =
          prepare_training_data (gs.filter (fun g => g.lines.isSome))) ∧
    (∀ (l1 l2 : List Game) (g : Game), g.lines = none →
        prepare_training_data (l1 ++ g :: l2) = prepare_training_data (l1 ++ l2)) := by
  refine ⟨?_, ?_, ?_, ?_⟩
  · intro pairs
    unfold seasonTallyPairs
    exact foldl_seasonTallyStep_filter pairs (0, 0, 0)
  · intro l1 l2 g p h
    unfold seasonTallyPairs
    rw [List.foldl_append, List.foldl_cons, seasonTallyStep_noline _ (g, p) h,
      ← List.foldl_append]
  · intro gs
    unfold prepare_training_data
    induction gs with
    | nil => rfl
    | cons g t ih =>
        rw [List.filterMap_cons, List.filter_cons]
        cases h : g.lines with
        | none =>
            simp only [h, Option.isSome_none, Bool.false_eq_true, if_neg]
            exact ih
        | some ln =>
            simp only [h, Option.isSome_some, if_pos]
            rw [List.filterMap_cons]
            simp only [h]
            rw [ih]
  · intro l1 l2 g h
    unfold prepare_training_data
    rw [List.filterMap_append, List.filterMap_cons]
    simp only [h]
    rw [← List.filterMap_append]

/-- C9, witness: prepending the line-less game `gNoLine` (with prediction
3) to a slate leaves the season tally unchanged, and `gNoLine` produces no
training record. -/
theorem missing_line_excluded_witness :
    gNoLine.lines = none ∧
    seasonTallyPairs [(gNoLine, 3), (gLine22, 2)] = seasonTallyPairs [(gLine22, 2)] ∧
    prepare_training_data [gNoLine] = prepare_training_data [] := by
  refine ⟨rfl, ?_, ?_⟩
  · exact missing_line_excluded.2.1 [] [(gLine22, 2)] gNoLine 3 rfl
  · exact missing_line_excluded.2.2.2 [] [] gNoLine rfl

end Predict
